import Mathlib

/-!
Verification of the fitness-tracker reconciliation/prediction engine
(`src/app.py`) against its natural-language specification.

The embedding models the pure computations of the app over exact rationals:
  * the energy model (`conservative_bmr`, `activity_excess`, the submit block,
    app.py lines 29-34 and 85-88);
  * the reconciliation pipeline for one person (lines 145-191): sorting,
    the unified daily timeline, the left-merged and forward-filled actual
    weight column, the anchored predicted-weight projection, and the
    long-format plot table;
  * the progress scorer (lines 239-244).

Calendar dates are modelled as integer day numbers (the code only ever uses
whole-day resolution: `pd.date_range(..., freq="D")` over ISO dates).
A pandas `NaN` slot is modelled as `none : Option Rat`; pandas left-merge with
a missing key produces such a slot, and `ffill` propagates the last known
value like the code's `Series.ffill`.  `sort_values` is modelled as a stable
insertion sort (stable is what pandas does on the small frames involved).
A pandas `DataFrame({..})` built from columns of unequal length aligns the
columns on their row indexes and pads the shorter column with `NaN`; this is
modelled by `alignCols`.
-/

namespace FitnessTracker

/-- A row of weights.csv restricted to the columns the pipeline reads:
`Date` (day number) and `Weight` (kg). -/
structure WEntry where
  date : Int
  weight : Rat
deriving DecidableEq

/-- A row of data.csv restricted to the columns the pipeline reads:
`Date` (day number) and `Net Calories`. -/
structure LEntry where
  date : Int
  net : Rat
deriving DecidableEq

/-- The binary sex category used by the BMR formula (app.py line 30). -/
inductive Sex where
  | Male
  | Female
deriving DecidableEq

/-- app.py lines 29-31: `base = 10*w + 6.25*h - 5*age + (5 if Male else -161)`;
the conservative resting burn is `base * 0.80`. -/
def conservative_bmr (sex : Sex) (w h age : Rat) : Rat :=
  (10 * w + 6.25 * h - 5 * age +
    (match sex with
      | Sex.Male => 5
      | Sex.Female => -161)) * 0.80

/-- app.py lines 33-34: `max(0, (met - 1) * w * (mins / 60))`. -/
def activity_excess (met w mins : Rat) : Rat :=
  max 0 ((met - 1) * w * (mins / 60))

/-- app.py lines 85-86: `active = activity_excess(walk_met, weight_now, walk_mins)
+ activity_excess(wt_met, weight_now, wt_mins)`. -/
def activeBurn (w walkMet walkMins wtMet wtMins : Rat) : Rat :=
  activity_excess walkMet w walkMins + activity_excess wtMet w wtMins

/-- app.py line 87: `total = bmr + active`. -/
def totalBurn (sex : Sex) (w h age walkMet walkMins wtMet wtMins : Rat) : Rat :=
  conservative_bmr sex w h age + activeBurn w walkMet walkMins wtMet wtMins

/-- app.py line 88: `net = eaten - total`. -/
def netCalories (sex : Sex) (w h age eaten walkMet walkMins wtMet wtMins : Rat) : Rat :=
  eaten - totalBurn sex w h age walkMet walkMins wtMet wtMins

/-- Insert an element into a list already sorted by `key`, keeping it after
equal keys: together with `sortBy` this is a stable ascending sort, the
behaviour of `DataFrame.sort_values` on the frames at app.py lines 149-150
and 239. -/
def insertBy {α : Type} (key : α → Int) (e : α) : List α → List α
  | [] => [e]
  | f :: fs => if key e ≤ key f then e :: f :: fs else f :: insertBy key e fs

/-- Stable ascending insertion sort by `key` (models `sort_values`). -/
def sortBy {α : Type} (key : α → Int) : List α → List α
  | [] => []
  | e :: es => insertBy key e (sortBy key es)

/-- Minimum of `key` over a non-empty list (models `Series.min` at app.py
line 153); 0 on the empty list, which the pipeline guard rules out. -/
def minKey {α : Type} (key : α → Int) : List α → Int
  | [] => 0
  | e :: es => es.foldl (fun m f => min m (key f)) (key e)

/-- Maximum of `key` over a non-empty list (models `Series.max` at app.py
line 154); 0 on the empty list, which the pipeline guard rules out. -/
def maxKey {α : Type} (key : α → Int) : List α → Int
  | [] => 0
  | e :: es => es.foldl (fun m f => max m (key f)) (key e)

/-- app.py line 153: `start_date = min(pw["Date"].min(), pdaily["Date"].min())`. -/
def start_date (pw : List WEntry) (pdaily : List LEntry) : Int :=
  min (minKey WEntry.date pw) (minKey LEntry.date pdaily)

/-- app.py line 154: `end_date = max(pw["Date"].max(), pdaily["Date"].max())`. -/
def end_date (pw : List WEntry) (pdaily : List LEntry) : Int :=
  max (maxKey WEntry.date pw) (maxKey LEntry.date pdaily)

/-- `pd.date_range(s, e, freq="D")`: the consecutive days from `s` to `e`
inclusive, empty when `e < s`. -/
def dateRange (s e : Int) : List Int :=
  (List.range (e - s + 1).toNat).map (fun i => s + Int.ofNat i)

/-- app.py lines 156-158: the unified daily timeline. -/
def timelineOf (pw : List WEntry) (pdaily : List LEntry) : List Int :=
  dateRange (start_date pw pdaily) (end_date pw pdaily)

/-- The block of rows a left merge produces for one timeline date `d`:
one row per weight entry whose date equals `d`, or a single NaN row when
there is none (pandas `merge(..., how="left")` row multiplication). -/
def matchRows (pw : List WEntry) (d : Int) : List (Int × Option Rat) :=
  match pw.filter (fun e => e.date == d) with
  | [] => [(d, none)]
  | ms => ms.map (fun e => (d, some e.weight))

/-- app.py lines 161-165: `actual = timeline.merge(pw[["Date","Weight"]],
on="Date", how="left")`. -/
def mergeActual (tl : List Int) (pw : List WEntry) : List (Int × Option Rat) :=
  match tl with
  | [] => []
  | d :: ds => matchRows pw d ++ mergeActual ds pw

/-- The `Net Calories` cells a left merge followed by `.fillna(0)` produces
for one timeline date `d` (app.py lines 170-174). -/
def matchNet (pdaily : List LEntry) (d : Int) : List Rat :=
  match pdaily.filter (fun e => e.date == d) with
  | [] => [0]
  | ms => ms.map (fun e => e.net)

/-- app.py lines 170-174: the `Net Calories` column of
`timeline.merge(pdaily[["Date","Net Calories"]], on="Date", how="left").fillna(0)`. -/
def mergeDaily (tl : List Int) (pdaily : List LEntry) : List Rat :=
  match tl with
  | [] => []
  | d :: ds => matchNet pdaily d ++ mergeDaily ds pdaily

/-- `Series.ffill` with the given carried value: a NaN cell takes the last
value seen, leading NaN cells stay NaN (app.py line 166). -/
def ffillFrom (carry : Option Rat) : List (Option Rat) → List (Option Rat)
  | [] => []
  | none :: xs => carry :: ffillFrom carry xs
  | some v :: xs => some v :: ffillFrom (some v) xs

/-- app.py lines 161-166: the forward-filled `Weight` column of `actual`. -/
def actualWeights (pw : List WEntry) (pdaily : List LEntry) : List (Option Rat) :=
  ffillFrom none ((mergeActual (timelineOf pw pdaily) (sortBy WEntry.date pw)).map Prod.snd)

/-- app.py line 167: `start_weight = actual.iloc[0]["Weight"]` — the value at
the first row of the merged frame, NaN (`none`) when that row is unresolved. -/
def start_weight (pw : List WEntry) (pdaily : List LEntry) : Option Rat :=
  (actualWeights pw pdaily).head?.join

/-- pandas `Series.cumsum` with an explicit accumulator: inclusive running sums. -/
def cumsumFrom (acc : Rat) : List Rat → List Rat
  | [] => []
  | x :: xs => (acc + x) :: cumsumFrom (acc + x) xs

/-- app.py line 176: `cumulative_deficit = daily["Net Calories"].clip(upper=0).cumsum()`. -/
def cumulative_deficit (pw : List WEntry) (pdaily : List LEntry) : List Rat :=
  cumsumFrom 0
    ((mergeDaily (timelineOf pw pdaily) (sortBy LEntry.date pdaily)).map (fun x => min x 0))

/-- app.py line 177: `predicted_weight = start_weight + (cumulative_deficit * 0.75) / 7700`;
NaN (`none`) start weight propagates into every cell. -/
def predicted_weight (pw : List WEntry) (pdaily : List LEntry) : List (Option Rat) :=
  (cumulative_deficit pw pdaily).map
    (fun c => (start_weight pw pdaily).map (fun w0 => w0 + c * 0.75 / 7700))

/-- The `Type` column of the long-format plot frame. -/
inductive SeriesKind where
  | Actual
  | Predicted
deriving DecidableEq

/-- One output row of the reconciliation: the `(Date, Weight, Type)` triple of
`plot_df`; a missing cell (pandas NaN/NaT) is `none`. -/
structure ProgressPoint where
  date : Option Int
  weight : Option Rat
  kind : SeriesKind
deriving DecidableEq

/-- `pd.DataFrame({"Date": ds, "Weight": ws})` with columns of possibly unequal
length: rows are paired by index and the shorter column is padded with NaN. -/
def alignCols (ds : List Int) (ws : List (Option Rat)) : List (Option Int × Option Rat) :=
  (List.range (max ds.length ws.length)).map (fun i => (ds[i]?, (ws[i]?).join))

/-- app.py lines 180-191: the long-format `plot_df`, Actual rows then
Predicted rows. -/
def plot_df (pw : List WEntry) (pdaily : List LEntry) : List ProgressPoint :=
  (alignCols (timelineOf pw pdaily) (actualWeights pw pdaily)).map
      (fun p => ProgressPoint.mk p.1 p.2 SeriesKind.Actual)
    ++ (alignCols (timelineOf pw pdaily) (predicted_weight pw pdaily)).map
      (fun p => ProgressPoint.mk p.1 p.2 SeriesKind.Predicted)

/-- app.py lines 145 and 279-280: the pipeline runs only when the person's
weight frame, goal frame and daily-log frame are all non-empty; otherwise the
page shows the advisory info message and produces no progress points
(modelled as `none`). -/
def build_progress_series (pw : List WEntry) (pg : List Rat) (pdaily : List LEntry) :
    Option (List ProgressPoint) :=
  if pw ≠ [] ∧ pg ≠ [] ∧ pdaily ≠ [] then some (plot_df pw pdaily) else none

/-- app.py lines 239-244: sort the person's weight entries by date, take the
first row's weight as `start`, the last row's weight as `curr`, and compute
`max(0, min(1, (start - curr) / (start - tgt) if start > tgt else 1))`;
`none` when the person has no weight entries (the "No data" branch). -/
def score_progress (pw : List WEntry) (tgt : Rat) : Option Rat :=
  ((sortBy WEntry.date pw).head?).map (fun e =>
    max 0 (min 1
      (if tgt < e.weight
        then (e.weight - ((sortBy WEntry.date pw).getLastD e).weight) / (e.weight - tgt)
        else 1)))

/-- Spec-side reading (section 4.3): the first *resolved* value of a column —
"the first available actual weight" a correct anchor would use. -/
def firstResolved (l : List (Option Rat)) : Option Rat :=
  (l.filterMap id).head?

/-- Spec-side reading (section 4.4): the net calories of calendar day `d` —
the day's logged `Net Calories`, and 0 when the day has no log entry. -/
def specNetOn (pdaily : List LEntry) (d : Int) : Rat :=
  (((pdaily.filter (fun e => e.date == d)).head?).map LEntry.net).getD 0

/-- Spec-side reading (section 4.3): the weight observed on day `d`, if any. -/
def specWeightOn (pw : List WEntry) (d : Int) : Option Rat :=
  ((pw.filter (fun e => e.date == d)).head?).map WEntry.weight

/-- A date-keyed list with at most one row per date. -/
def UniqueDates {α : Type} (key : α → Int) (l : List α) : Prop :=
  ∀ d : Int, (l.filter (fun e => key e == d)).length ≤ 1

/-! ### Helper lemmas -/

theorem ffillFrom_length (c : Option Rat) (l : List (Option Rat)) :
    (ffillFrom c l).length = l.length := by
  induction l generalizing c with
  | nil => rfl
  | cons x xs ih => cases x <;> simp [ffillFrom, ih]

theorem cumsumFrom_length (acc : Rat) (l : List Rat) :
    (cumsumFrom acc l).length = l.length := by
  induction l generalizing acc with
  | nil => rfl
  | cons x xs ih => simp [cumsumFrom, ih]

theorem cumsumFrom_getElem? (l : List Rat) (acc : Rat) (i : Nat) (hi : i < l.length) :
    (cumsumFrom acc l)[i]? = some (acc + (l.take (i + 1)).sum) := by
  induction l generalizing acc i with
  | nil => simp at hi
  | cons x xs ih =>
    cases i with
    | zero => simp [cumsumFrom]
    | succ j =>
      have hj : j < xs.length := by simpa using hi
      rw [show cumsumFrom acc (x :: xs) = (acc + x) :: cumsumFrom (acc + x) xs from rfl]
      rw [List.getElem?_cons_succ, ih (acc + x) j hj]
      rw [List.take_succ_cons, List.sum_cons, add_assoc]

theorem cumsumFrom_chain (acc : Rat) (l : List Rat) (h : ∀ x ∈ l, x ≤ 0) :
    List.Chain' (fun a b => b ≤ a) (cumsumFrom acc l) := by
  induction l generalizing acc with
  | nil => simp [cumsumFrom]
  | cons x xs ih =>
    rw [show cumsumFrom acc (x :: xs) = (acc + x) :: cumsumFrom (acc + x) xs from rfl]
    rw [List.chain'_cons']
    refine ⟨?_, ih (acc + x) (fun y hy => h y (List.mem_cons_of_mem x hy))⟩
    intro y hy
    cases xs with
    | nil => simp [cumsumFrom] at hy
    | cons z zs =>
      rw [show cumsumFrom (acc + x) (z :: zs)
            = ((acc + x) + z) :: cumsumFrom ((acc + x) + z) zs from rfl] at hy
      simp only [List.head?_cons, Option.mem_def, Option.some.injEq] at hy
      have hz : z ≤ 0 := h z (List.mem_cons_of_mem x (List.mem_cons_self z zs))
      rw [← hy]
      linarith

theorem insertBy_perm {α : Type} (key : α → Int) (e : α) (l : List α) :
    List.Perm (insertBy key e l) (e :: l) := by
  induction l with
  | nil => exact List.Perm.refl [e]
  | cons f fs ih =>
    by_cases hef : key e ≤ key f
    · simp [insertBy, hef]
    · rw [insertBy, if_neg hef]
      exact (ih.cons f).trans (List.Perm.swap e f fs)

theorem sortBy_perm {α : Type} (key : α → Int) (l : List α) :
    List.Perm (sortBy key l) l := by
  induction l with
  | nil => exact List.Perm.refl []
  | cons e es ih => exact (insertBy_perm key e (sortBy key es)).trans (ih.cons e)

theorem uniqueDates_of_nodup {α : Type} (key : α → Int) (l : List α)
    (h : (l.map key).Nodup) : UniqueDates key l := by
  induction l with
  | nil => intro d; simp
  | cons e es ih =>
    intro d
    simp only [List.map_cons, List.nodup_cons] at h
    by_cases hd : key e = d
    · have hnil : es.filter (fun f => key f == d) = [] := by
        rw [List.filter_eq_nil_iff]
        intro f hf hfd
        apply h.1
        rw [beq_iff_eq] at hfd
        have hef : key e = key f := hd.trans hfd.symm
        rw [hef]
        exact List.mem_map_of_mem key hf
      rw [List.filter_cons_of_pos (by simpa using hd), hnil]
      simp
    · rw [List.filter_cons_of_neg (by simpa using hd)]
      exact ih h.2 d

theorem filter_eq_of_perm {α : Type} {l l' : List α} (p : α → Bool)
    (hp : List.Perm l l') (hlen : (l'.filter p).length ≤ 1) :
    l.filter p = l'.filter p := by
  have hperm := hp.filter p
  match hval : l'.filter p, hlen with
  | [], _ =>
    rw [hval] at hperm
    exact hperm.eq_nil
  | [a], _ =>
    rw [hval] at hperm
    exact List.perm_singleton.mp hperm
  | a :: b :: t, hlen2 => simp at hlen2

theorem matchRows_eq (pw : List WEntry) (d : Int)
    (h : (pw.filter (fun e => e.date == d)).length ≤ 1) :
    matchRows pw d = [(d, specWeightOn pw d)] := by
  unfold matchRows specWeightOn
  rcases hf : pw.filter (fun e => e.date == d) with _ | ⟨e, rest⟩
  · rw [hf]
    simp
  · rcases rest with _ | ⟨f, t⟩
    · rw [hf]
      simp
    · rw [hf] at h
      simp at h

theorem matchNet_eq (pdaily : List LEntry) (d : Int)
    (h : (pdaily.filter (fun e => e.date == d)).length ≤ 1) :
    matchNet pdaily d = [specNetOn pdaily d] := by
  unfold matchNet specNetOn
  rcases hf : pdaily.filter (fun e => e.date == d) with _ | ⟨e, rest⟩
  · rw [hf]
    simp
  · rcases rest with _ | ⟨f, t⟩
    · rw [hf]
      simp
    · rw [hf] at h
      simp at h

theorem mergeActual_eq (tl : List Int) (pw : List WEntry) (h : UniqueDates WEntry.date pw) :
    mergeActual tl pw = tl.map (fun d => (d, specWeightOn pw d)) := by
  induction tl with
  | nil => rfl
  | cons d ds ih => rw [mergeActual, matchRows_eq pw d (h d), ih, List.map_cons]; rfl

theorem mergeDaily_eq (tl : List Int) (pdaily : List LEntry) (h : UniqueDates LEntry.date pdaily) :
    mergeDaily tl pdaily = tl.map (specNetOn pdaily) := by
  induction tl with
  | nil => rfl
  | cons d ds ih => rw [mergeDaily, matchNet_eq pdaily d (h d), ih, List.map_cons]; rfl

theorem sortBy_nodup_map {α : Type} (key : α → Int) (l : List α)
    (h : (l.map key).Nodup) : ((sortBy key l).map key).Nodup :=
  (((sortBy_perm key l).map key).nodup_iff).mpr h

theorem specNetOn_sortBy (pdaily : List LEntry) (h : (pdaily.map LEntry.date).Nodup)
    (d : Int) : specNetOn (sortBy LEntry.date pdaily) d = specNetOn pdaily d := by
  unfold specNetOn
  rw [filter_eq_of_perm _ (sortBy_perm LEntry.date pdaily)
        (uniqueDates_of_nodup LEntry.date pdaily h d)]

theorem specWeightOn_sortBy (pw : List WEntry) (h : (pw.map WEntry.date).Nodup)
    (d : Int) : specWeightOn (sortBy WEntry.date pw) d = specWeightOn pw d := by
  unfold specWeightOn
  rw [filter_eq_of_perm _ (sortBy_perm WEntry.date pw)
        (uniqueDates_of_nodup WEntry.date pw h d)]

theorem range_map_getElem? {γ : Type} (l : List γ) :
    (List.range l.length).map (fun i => l[i]?) = l.map some := by
  induction l with
  | nil => rfl
  | cons x xs ih =>
    rw [show (x :: xs).length = xs.length + 1 from rfl, List.range_succ_eq_map]
    rw [List.map_cons, List.map_map, List.map_cons]
    congr 1
    · simp
    · rw [← ih]
      apply List.map_congr_left
      intro j hj
      simp

theorem alignCols_length (ds : List Int) (ws : List (Option Rat)) :
    (alignCols ds ws).length = max ds.length ws.length := by
  simp [alignCols]

theorem alignCols_map_fst (ds : List Int) (ws : List (Option Rat))
    (h : ws.length = ds.length) :
    (alignCols ds ws).map Prod.fst = ds.map some := by
  unfold alignCols
  rw [h, max_self, List.map_map]
  have := range_map_getElem? ds
  rw [← this]
  apply List.map_congr_left
  intro j hj
  rfl

theorem filter_kind_map_same (l : List (Option Int × Option Rat)) (k : SeriesKind) :
    ((l.map (fun p => ProgressPoint.mk p.1 p.2 k)).filter (fun q => q.kind == k))
      = l.map (fun p => ProgressPoint.mk p.1 p.2 k) := by
  induction l with
  | nil => rfl
  | cons p ps ih => simp [List.filter_cons, ih]

theorem filter_kind_map_ne (l : List (Option Int × Option Rat)) (k k' : SeriesKind)
    (h : (k == k') = false) :
    ((l.map (fun p => ProgressPoint.mk p.1 p.2 k)).filter (fun q => q.kind == k')) = [] := by
  induction l with
  | nil => rfl
  | cons p ps ih => simp [List.filter_cons, h, ih]

theorem foldl_min_le {α : Type} (key : α → Int) (l : List α) (a : Int) :
    l.foldl (fun m f => min m (key f)) a ≤ a := by
  induction l generalizing a with
  | nil => exact le_refl a
  | cons f fs ih => exact le_trans (ih (min a (key f))) (min_le_left a (key f))

theorem le_foldl_max {α : Type} (key : α → Int) (l : List α) (a : Int) :
    a ≤ l.foldl (fun m f => max m (key f)) a := by
  induction l generalizing a with
  | nil => exact le_refl a
  | cons f fs ih => exact le_trans (le_max_left a (key f)) (ih (max a (key f)))

theorem minKey_le_maxKey {α : Type} (key : α → Int) (l : List α) (h : l ≠ []) :
    minKey key l ≤ maxKey key l := by
  match l, h with
  | e :: es, _ =>
    exact le_trans (foldl_min_le key es (key e)) (le_foldl_max key es (key e))

theorem start_date_le_end_date (pw : List WEntry) (pdaily : List LEntry)
    (h1 : pw ≠ []) (h2 : pdaily ≠ []) : start_date pw pdaily ≤ end_date pw pdaily := by
  unfold start_date end_date
  exact le_trans (min_le_left _ _)
    (le_trans (minKey_le_maxKey WEntry.date pw h1) (le_max_left _ _))

theorem timelineOf_length (pw : List WEntry) (pdaily : List LEntry)
    (h1 : pw ≠ []) (h2 : pdaily ≠ []) :
    (timelineOf pw pdaily).length = (end_date pw pdaily - start_date pw pdaily).toNat + 1 := by
  unfold timelineOf dateRange
  rw [List.length_map, List.length_range]
  have := start_date_le_end_date pw pdaily h1 h2
  omega

theorem actualWeights_length (pw : List WEntry) (pdaily : List LEntry)
    (h : (pw.map WEntry.date).Nodup) :
    (actualWeights pw pdaily).length = (timelineOf pw pdaily).length := by
  have hu := uniqueDates_of_nodup WEntry.date _ (sortBy_nodup_map WEntry.date pw h)
  unfold actualWeights
  rw [ffillFrom_length, mergeActual_eq _ _ hu, List.map_map, List.length_map]

theorem mergeDaily_sorted (pw : List WEntry) (pdaily : List LEntry)
    (h : (pdaily.map LEntry.date).Nodup) :
    mergeDaily (timelineOf pw pdaily) (sortBy LEntry.date pdaily)
      = (timelineOf pw pdaily).map (specNetOn pdaily) := by
  have hu := uniqueDates_of_nodup LEntry.date _ (sortBy_nodup_map LEntry.date pdaily h)
  rw [mergeDaily_eq _ _ hu]
  apply List.map_congr_left
  intro d hd
  exact specNetOn_sortBy pdaily h d

theorem predicted_weight_length (pw : List WEntry) (pdaily : List LEntry)
    (h : (pdaily.map LEntry.date).Nodup) :
    (predicted_weight pw pdaily).length = (timelineOf pw pdaily).length := by
  unfold predicted_weight cumulative_deficit
  rw [List.length_map, cumsumFrom_length, List.length_map, mergeDaily_sorted pw pdaily h,
    List.length_map]

theorem matchRows_length_pos (pw : List WEntry) (d : Int) :
    1 ≤ (matchRows pw d).length := by
  unfold matchRows
  rcases hf : pw.filter (fun e => e.date == d) with _ | ⟨e, rest⟩
  · rw [hf]
    simp
  · rw [hf]
    simp

theorem matchRows_length_of_two (pw : List WEntry) (d : Int)
    (h2 : 2 ≤ (pw.filter (fun e => e.date == d)).length) :
    2 ≤ (matchRows pw d).length := by
  unfold matchRows
  rcases hf : pw.filter (fun e => e.date == d) with _ | ⟨e, rest⟩
  · rw [hf] at h2
    simp at h2
  · rw [hf] at h2 ⊢
    simpa using h2

theorem mergeActual_length_ge (tl : List Int) (pw : List WEntry) :
    tl.length ≤ (mergeActual tl pw).length := by
  induction tl with
  | nil => simp [mergeActual]
  | cons d ds ih =>
    rw [mergeActual, List.length_append, List.length_cons]
    have := matchRows_length_pos pw d
    omega

theorem mergeActual_length_lt (tl : List Int) (pw : List WEntry) (d0 : Int)
    (hd : d0 ∈ tl) (h2 : 2 ≤ (pw.filter (fun e => e.date == d0)).length) :
    tl.length < (mergeActual tl pw).length := by
  induction tl with
  | nil => simp at hd
  | cons d ds ih =>
    rw [mergeActual, List.length_append, List.length_cons]
    rcases List.mem_cons.mp hd with heq | hmem
    · have hm : 2 ≤ (matchRows pw d).length := matchRows_length_of_two pw d (heq ▸ h2)
      have := mergeActual_length_ge ds pw
      omega
    · have := ih hmem
      have := matchRows_length_pos pw d
      omega

theorem timeline_le_actualWeights (pw : List WEntry) (pdaily : List LEntry) :
    (timelineOf pw pdaily).length ≤ (actualWeights pw pdaily).length := by
  unfold actualWeights
  rw [ffillFrom_length, List.length_map]
  exact mergeActual_length_ge _ _

theorem range_map_getElem?_pad {γ : Type} (l : List γ) (m : Nat) (h : l.length ≤ m) :
    (List.range m).map (fun i => l[i]?)
      = l.map some ++ List.replicate (m - l.length) none := by
  have hm : m = l.length + (m - l.length) := by omega
  conv_lhs => rw [hm]
  rw [List.range_add, List.map_append, range_map_getElem? l, List.map_map]
  congr 1
  have hnone : ∀ j ∈ List.range (m - l.length),
      ((fun i => l[i]?) ∘ (fun j => l.length + j)) j = (none : Option γ) := by
    intro j hj
    simp only [Function.comp_apply]
    exact List.getElem?_eq_none (Nat.le_add_right l.length j)
  rw [List.map_congr_left hnone, List.map_const', List.length_range]

theorem range_map_join (ws : List (Option Rat)) :
    (List.range ws.length).map (fun i => (ws[i]?).join) = ws := by
  induction ws with
  | nil => rfl
  | cons x xs ih =>
    rw [show (x :: xs).length = xs.length + 1 from rfl, List.range_succ_eq_map]
    rw [List.map_cons, List.map_map]
    congr 1
    · simp
    · conv_rhs => rw [← ih]
      apply List.map_congr_left
      intro j hj
      simp

theorem alignCols_map_fst_pad (ds : List Int) (ws : List (Option Rat))
    (h : ds.length ≤ ws.length) :
    (alignCols ds ws).map Prod.fst
      = ds.map some ++ List.replicate (ws.length - ds.length) none := by
  unfold alignCols
  rw [max_eq_right h, List.map_map]
  rw [← range_map_getElem?_pad ds ws.length h]
  apply List.map_congr_left
  intro j hj
  rfl

theorem alignCols_map_snd (ds : List Int) (ws : List (Option Rat))
    (h : ds.length ≤ ws.length) :
    (alignCols ds ws).map Prod.snd = ws := by
  unfold alignCols
  rw [max_eq_right h, List.map_map]
  conv_rhs => rw [← range_map_join ws]
  apply List.map_congr_left
  intro j hj
  rfl

/-! ### Claim theorems -/

/-- C1: code divergence exhibit.  With weights `[(day 5, 80)]` and logs
`[(day 0, -700)]` (the log series starts strictly before the weight series),
the resolver does leave the five timeline days before the first weight entry
unresolved (no value, not zero) — but the anchor `start_weight` the code uses
is the first Timeline row's value, which is unresolved (`none`), not the first
resolved Actual value `80`, so the whole Predicted series is unresolved.  The
claim (and spec sections 4.3/4.4) require the anchor to be `80`. -/
theorem claim_C1_code_divergence :
    actualWeights [WEntry.mk 5 80] [LEntry.mk 0 (-700)]
        = [none, none, none, none, none, some 80]
      ∧ firstResolved (actualWeights [WEntry.mk 5 80] [LEntry.mk 0 (-700)]) = some 80
      ∧ start_weight [WEntry.mk 5 80] [LEntry.mk 0 (-700)] = none
      ∧ predicted_weight [WEntry.mk 5 80] [LEntry.mk 0 (-700)]
          = [none, none, none, none, none, none] := by
  exact ⟨by decide, by decide, by decide, by decide⟩

/-- C4: with `start` the chronologically earliest and `curr` the latest weight
of the sorted series, the progress score is
`clamp((start - curr) / (start - tgt), 0, 1)` when `start > tgt` and `1`
otherwise; in particular it is exactly 1 when `curr = tgt < start`, exactly 0
when `curr = start` (with `tgt < start`), and 1 whenever `tgt ≥ start`. -/
theorem claim_C4 (pw : List WEntry) (tgt : Rat) (e : WEntry) (es : List WEntry)
    (hs : sortBy WEntry.date pw = e :: es) :
    (tgt < e.weight →
        score_progress pw tgt
          = some (max 0 (min 1
              ((e.weight - (List.getLastD es e).weight) / (e.weight - tgt)))))
      ∧ (e.weight ≤ tgt → score_progress pw tgt = some 1)
      ∧ (tgt < e.weight → (List.getLastD es e).weight = tgt →
          score_progress pw tgt = some 1)
      ∧ (tgt < e.weight → (List.getLastD es e).weight = e.weight →
          score_progress pw tgt = some 0) := by
  unfold score_progress
  rw [hs]
  simp only [List.head?_cons, Option.map_some']
  rw [List.getLastD_cons]
  refine ⟨?_, ?_, ?_, ?_⟩
  · intro hlt
    rw [if_pos hlt]
  · intro hle
    rw [if_neg (not_lt.mpr hle)]
    norm_num
  · intro hlt hc
    rw [if_pos hlt, hc, div_self (sub_ne_zero.mpr (ne_of_gt hlt))]
    norm_num
  · intro hlt hc
    rw [if_pos hlt, hc, sub_self, zero_div]
    norm_num

/-- C4 witness: the spec's scenario — weights `[(d0, 80), (d7, 78)]`, goal 75
give progress `(80 - 78) / (80 - 75) = 0.4`. -/
theorem claim_C4_witness :
    score_progress [WEntry.mk 0 80, WEntry.mk 7 78] 75 = some (2 / 5) := by
  have h := (claim_C4 [WEntry.mk 0 80, WEntry.mk 7 78] 75 (WEntry.mk 0 80)
    [WEntry.mk 7 78] (by decide)).1 (by norm_num)
  rw [h]
  norm_num [min_def, max_def]

/-- C5: counterexample to the claim as stated.  With a non-empty weight series
and a non-empty log series but no goal row, the pipeline still takes the
advisory empty branch (app.py line 145 also requires `not pg.empty`), so the
advisory result is *not* equivalent to "weight series empty or log series
empty". -/
theorem claim_C5_counterexample :
    build_progress_series [WEntry.mk 0 80] [] [LEntry.mk 0 (-100)] = none
      ∧ ([WEntry.mk 0 80] : List WEntry) ≠ []
      ∧ ([LEntry.mk 0 (-100)] : List LEntry) ≠ [] := by
  refine ⟨?_, by simp, by simp⟩
  unfold build_progress_series
  simp

/-- C5 (amended): the pipeline produces the advisory empty result iff the
weight series, the goal series, or the daily-log series is empty; it never
fails otherwise — the result is always either the advisory empty result or
the full progress series. -/
theorem claim_C5 (pw : List WEntry) (pg : List Rat) (pdaily : List LEntry) :
    (build_progress_series pw pg pdaily = none ↔ (pw = [] ∨ pg = [] ∨ pdaily = []))
      ∧ (build_progress_series pw pg pdaily = none
          ∨ build_progress_series pw pg pdaily = some (plot_df pw pdaily)) := by
  unfold build_progress_series
  by_cases hc : pw ≠ [] ∧ pg ≠ [] ∧ pdaily ≠ []
  · rw [if_pos hc]
    refine ⟨⟨fun hnone => absurd hnone (by simp), fun hor => ?_⟩, Or.inr rfl⟩
    rcases hc with ⟨h1, h2, h3⟩
    rcases hor with h | h | h <;> contradiction
  · rw [if_neg hc]
    refine ⟨⟨fun _ => ?_, fun _ => rfl⟩, Or.inl rfl⟩
    by_contra hor
    push_neg at hor
    exact hc ⟨hor.1, hor.2.1, hor.2.2⟩

/-- C6: the energy model computes resting burn
`0.80 * (10*w + 6.25*h - 5*age + (5 if Male else -161))`, per-activity excess
burn `max(0, (met-1)*w*(mins/60))` which is zero whenever `met ≤ 1` (for the
domain-sane non-negative weight and minutes), total burn = resting burn plus
the sum of the two activity excess burns, and net calories = eaten − total. -/
theorem claim_C6 (sex : Sex) (w h age eaten walkMet walkMins wtMet wtMins : Rat)
    (hw : 0 ≤ w) :
    conservative_bmr sex w h age
        = 0.80 * (10 * w + 6.25 * h - 5 * age +
            (match sex with
             | Sex.Male => (5 : Rat)
             | Sex.Female => -161))
      ∧ (∀ met mins : Rat, 0 ≤ mins → met ≤ 1 → activity_excess met w mins = 0)
      ∧ totalBurn sex w h age walkMet walkMins wtMet wtMins
          = conservative_bmr sex w h age
            + (activity_excess walkMet w walkMins + activity_excess wtMet w wtMins)
      ∧ netCalories sex w h age eaten walkMet walkMins wtMet wtMins
          = eaten - totalBurn sex w h age walkMet walkMins wtMet wtMins := by
  refine ⟨?_, ?_, rfl, rfl⟩
  · cases sex <;> (unfold conservative_bmr; ring)
  · intro met mins hm hmet
    unfold activity_excess
    apply max_eq_left
    apply mul_nonpos_of_nonpos_of_nonneg
    · exact mul_nonpos_of_nonpos_of_nonneg (by linarith) hw
    · positivity

/-- C6 witness: at MET 1 (the resting baseline) an activity contributes no
excess burn. -/
theorem claim_C6_witness : activity_excess 1 80 30 = 0 :=
  (claim_C6 Sex.Male 80 175 24 1800 1 30 3.5 30 (by norm_num)).2.1 1 30
    (by norm_num) (by norm_num)

/-- C7: the predicted series can never trend upward — whenever the anchor is
resolved, the per-row predicted values are monotonically non-increasing in
timeline order (consecutive pairs), and the predicted column is exactly those
values. -/
theorem claim_C7 (pw : List WEntry) (pdaily : List LEntry) (w0 : Rat)
    (hw : start_weight pw pdaily = some w0) :
    List.Chain' (fun a b => b ≤ a)
        ((cumulative_deficit pw pdaily).map (fun c => w0 + c * 0.75 / 7700))
      ∧ predicted_weight pw pdaily
          = (cumulative_deficit pw pdaily).map
              (fun c => some (w0 + c * 0.75 / 7700)) := by
  constructor
  · rw [List.chain'_map]
    unfold cumulative_deficit
    apply List.Chain'.imp ?mono (cumsumFrom_chain 0 _ ?mem)
    case mono =>
      intro a b hab
      linarith
    case mem =>
      intro x hx
      rw [List.mem_map] at hx
      rcases hx with ⟨y, hy, hxy⟩
      rw [← hxy]
      exact min_le_right y 0
  · unfold predicted_weight
    rw [hw]
    rfl

/-- C7 witness: a concrete two-day series (one deficit day, one surplus day)
instantiating the monotonicity theorem. -/
theorem claim_C7_witness :
    List.Chain' (fun a b => b ≤ a)
        ((cumulative_deficit [WEntry.mk 0 80] [LEntry.mk 0 (-7700), LEntry.mk 1 100]).map
          (fun c => (80 : Rat) + c * 0.75 / 7700))
      ∧ predicted_weight [WEntry.mk 0 80] [LEntry.mk 0 (-7700), LEntry.mk 1 100]
          = (cumulative_deficit [WEntry.mk 0 80]
                [LEntry.mk 0 (-7700), LEntry.mk 1 100]).map
              (fun c => some ((80 : Rat) + c * 0.75 / 7700)) :=
  claim_C7 [WEntry.mk 0 80] [LEntry.mk 0 (-7700), LEntry.mk 1 100] 80 (by decide)

/-- C9: counterexample to the claim as stated.  The claim's stated domain-sane
bounds (`weight > 0`, `minutes ≥ 0`, `met > 0`) do not make the computed BMR
non-negative: with weight 1, height 1, age 99, Female, the conservative BMR is
`0.80 * (10 + 6.25 - 495 - 161) < 0`. -/
theorem claim_C9_counterexample :
    (0 : Rat) < 1 ∧ (0 : Rat) ≤ 0 ∧ (0 : Rat) < 2
      ∧ conservative_bmr Sex.Female 1 1 99 < 0 := by
  refine ⟨by norm_num, le_refl 0, by norm_num, ?_⟩
  unfold conservative_bmr
  norm_num

/-- C9 (amended): the active-burn value is non-negative for *every* input, and
the BMR value is non-negative under the UI's actual input ranges
(weight ≥ 30 kg, height ≥ 100 cm, age ≤ 120 years). -/
theorem claim_C9 (sex : Sex) (met w h age mins : Rat) :
    0 ≤ activity_excess met w mins
      ∧ (30 ≤ w → 100 ≤ h → age ≤ 120 → 0 ≤ conservative_bmr sex w h age) := by
  constructor
  · exact le_max_left 0 _
  · intro hw hh hage
    cases sex <;> (unfold conservative_bmr; simp only; nlinarith)

/-- C9 witness: a typical in-range input has non-negative active burn and BMR. -/
theorem claim_C9_witness :
    0 ≤ activity_excess 3.5 60 45 ∧ 0 ≤ conservative_bmr Sex.Female 60 160 30 :=
  ⟨(claim_C9 Sex.Female 3.5 60 160 30 45).1,
    (claim_C9 Sex.Female 3.5 60 160 30 45).2 (by norm_num) (by norm_num) (by norm_num)⟩

/-- C2: for a per-day log series (at most one row per date), whenever the
anchor is resolved, the predicted value at the `i`-th timeline day equals
`W0 + (cum_deficit * 0.75) / 7700`, where `cum_deficit` is the running sum of
`min(net_calories, 0)` over timeline days up to and including day `i`, and the
net calories of a day with no log entry count as 0. -/
theorem claim_C2 (pw : List WEntry) (pdaily : List LEntry) (w0 : Rat)
    (h1 : pw ≠ []) (h2 : pdaily ≠ [])
    (hnd : (pdaily.map LEntry.date).Nodup)
    (hw : start_weight pw pdaily = some w0) :
    ∀ i : Nat, i < (timelineOf pw pdaily).length →
      (predicted_weight pw pdaily)[i]?
        = some (some (w0 +
            ((((timelineOf pw pdaily).take (i + 1)).map
                (fun d => min (specNetOn pdaily d) 0)).sum * 0.75) / 7700)) := by
  intro i hi
  simp only [predicted_weight, cumulative_deficit, hw, Option.map_some']
  rw [List.getElem?_map, mergeDaily_sorted pw pdaily hnd, List.map_map]
  rw [cumsumFrom_getElem? _ 0 i (by simpa using hi)]
  rw [← List.map_take]
  simp [Function.comp_def]

/-- C2 witness: the spec's scenario — nets −500, −500, +200, −300 over four
consecutive days with anchor weight 80: the day-4 predicted value is
`80 + (−1300 · 0.75) / 7700`. -/
theorem claim_C2_witness :
    (predicted_weight [WEntry.mk 0 80]
        [LEntry.mk 0 (-500), LEntry.mk 1 (-500), LEntry.mk 2 200, LEntry.mk 3 (-300)])[3]?
      = some (some ((80 : Rat) +
          ((((timelineOf [WEntry.mk 0 80]
                [LEntry.mk 0 (-500), LEntry.mk 1 (-500), LEntry.mk 2 200,
                  LEntry.mk 3 (-300)]).take (3 + 1)).map
              (fun d => min (specNetOn
                [LEntry.mk 0 (-500), LEntry.mk 1 (-500), LEntry.mk 2 200,
                  LEntry.mk 3 (-300)] d) 0)).sum * 0.75) / 7700)) :=
  claim_C2 [WEntry.mk 0 80]
    [LEntry.mk 0 (-500), LEntry.mk 1 (-500), LEntry.mk 2 200, LEntry.mk 3 (-300)] 80
    (by decide) (by decide) (by decide) (by decide) 3 (by decide)

/-- C10: the predicted value on the first timeline date already includes that
day's own clipped deficit — it equals
`W0 + (min(net, 0) * 0.75) / 7700` for the first day's net calories — and on a
deficit first day it is strictly below the anchor `W0`. -/
theorem claim_C10 (pw : List WEntry) (pdaily : List LEntry) (w0 : Rat) (d0 : Int)
    (ds : List Int)
    (hnd : (pdaily.map LEntry.date).Nodup)
    (hw : start_weight pw pdaily = some w0)
    (htl : timelineOf pw pdaily = d0 :: ds) :
    (predicted_weight pw pdaily).head?
        = some (some (w0 + (min (specNetOn pdaily d0) 0 * 0.75) / 7700))
      ∧ (specNetOn pdaily d0 < 0 →
          w0 + (min (specNetOn pdaily d0) 0 * 0.75) / 7700 < w0) := by
  constructor
  · rw [List.head?_eq_getElem?]
    simp only [predicted_weight, cumulative_deficit, hw, Option.map_some']
    rw [List.getElem?_map, mergeDaily_sorted pw pdaily hnd, htl, List.map_map]
    rw [cumsumFrom_getElem? _ 0 0 (by simp)]
    simp [Function.comp]
  · intro hneg
    rw [min_eq_left (le_of_lt hneg)]
    have hlt : specNetOn pdaily d0 * 0.75 / 7700 < 0 := by
      have h75 : specNetOn pdaily d0 * 0.75 < 0 := by nlinarith
      linarith
    linarith

/-- C10 witness: anchor 80 and a −7700 kcal first (and only) day: the first
predicted value is `80 + (−7700 · 0.75) / 7700`, strictly below 80. -/
theorem claim_C10_witness :
    (predicted_weight [WEntry.mk 0 80] [LEntry.mk 0 (-7700)]).head?
        = some (some ((80 : Rat) +
            (min (specNetOn [LEntry.mk 0 (-7700)] 0) 0 * 0.75) / 7700))
      ∧ (specNetOn [LEntry.mk 0 (-7700)] 0 < 0 →
          (80 : Rat) + (min (specNetOn [LEntry.mk 0 (-7700)] 0) 0 * 0.75) / 7700 < 80) :=
  claim_C10 [WEntry.mk 0 80] [LEntry.mk 0 (-7700)] 80 0 []
    (by decide) (by decide) (by decide)

/-- C3: counterexample to the claim as stated.  With two weight entries on the
same date, the left merge duplicates the timeline row, so the Actual series
has 2 points while `(end_date − start_date).days + 1 = 1`. -/
theorem claim_C3_counterexample :
    ((plot_df [WEntry.mk 0 80, WEntry.mk 0 81] [LEntry.mk 0 (-100)]).filter
        (fun p => p.kind == SeriesKind.Actual)).length = 2
      ∧ (end_date [WEntry.mk 0 80, WEntry.mk 0 81] [LEntry.mk 0 (-100)]
          - start_date [WEntry.mk 0 80, WEntry.mk 0 81] [LEntry.mk 0 (-100)]).toNat + 1
        = 1 := by
  exact ⟨by decide, by decide⟩

/-- C3 (amended): for non-empty weight and log series with at most one entry
per date in each series, each series kind of the progress output has exactly
one point per timeline date — its date column is exactly the timeline (the
consecutive days from the earliest to the latest date across both series, so
no gaps and no duplicates) — and the timeline has exactly
`(end_date − start_date).days + 1` entries. -/
theorem claim_C3 (pw : List WEntry) (pdaily : List LEntry)
    (h1 : pw ≠ []) (h2 : pdaily ≠ [])
    (hwn : (pw.map WEntry.date).Nodup) (hdn : (pdaily.map LEntry.date).Nodup) :
    ((plot_df pw pdaily).filter (fun p => p.kind == SeriesKind.Actual)).map
        ProgressPoint.date = (timelineOf pw pdaily).map some
      ∧ ((plot_df pw pdaily).filter (fun p => p.kind == SeriesKind.Predicted)).map
          ProgressPoint.date = (timelineOf pw pdaily).map some
      ∧ (timelineOf pw pdaily).length
          = (end_date pw pdaily - start_date pw pdaily).toNat + 1 := by
  have hal : (actualWeights pw pdaily).length = (timelineOf pw pdaily).length :=
    actualWeights_length pw pdaily hwn
  have hpl : (predicted_weight pw pdaily).length = (timelineOf pw pdaily).length :=
    predicted_weight_length pw pdaily hdn
  refine ⟨?_, ?_, timelineOf_length pw pdaily h1 h2⟩
  · unfold plot_df
    rw [List.filter_append, filter_kind_map_same,
      filter_kind_map_ne _ SeriesKind.Predicted SeriesKind.Actual rfl,
      List.append_nil, List.map_map]
    exact alignCols_map_fst _ _ hal
  · unfold plot_df
    rw [List.filter_append, filter_kind_map_same,
      filter_kind_map_ne _ SeriesKind.Actual SeriesKind.Predicted rfl,
      List.nil_append, List.map_map]
    exact alignCols_map_fst _ _ hpl

/-- C3 witness: weights `[(0, 80)]` and logs `[(1, −100)]` give exactly one
Actual and one Predicted point per day of the two-day timeline. -/
theorem claim_C3_witness :
    ((plot_df [WEntry.mk 0 80] [LEntry.mk 1 (-100)]).filter
        (fun p => p.kind == SeriesKind.Actual)).map ProgressPoint.date
      = (timelineOf [WEntry.mk 0 80] [LEntry.mk 1 (-100)]).map some
      ∧ ((plot_df [WEntry.mk 0 80] [LEntry.mk 1 (-100)]).filter
          (fun p => p.kind == SeriesKind.Predicted)).map ProgressPoint.date
        = (timelineOf [WEntry.mk 0 80] [LEntry.mk 1 (-100)]).map some
      ∧ (timelineOf [WEntry.mk 0 80] [LEntry.mk 1 (-100)]).length
          = (end_date [WEntry.mk 0 80] [LEntry.mk 1 (-100)]
              - start_date [WEntry.mk 0 80] [LEntry.mk 1 (-100)]).toNat + 1 :=
  claim_C3 [WEntry.mk 0 80] [LEntry.mk 1 (-100)] (by decide) (by decide)
    (by decide) (by decide)

/-- C8: counterexample to the claim as stated.  Weights `[(0, 80), (0, 81)]`
written in that order (so the last-written weight for day 0 is 81) and a log
on day 0: the single Actual point carrying date 0 has weight 80, the
*first*-written entry, not 81 — and an extra dateless Actual row appears. -/
theorem claim_C8_counterexample :
    ((plot_df [WEntry.mk 0 80, WEntry.mk 0 81] [LEntry.mk 0 (-700)]).filter
        (fun p => p.kind == SeriesKind.Actual)).map (fun p => (p.date, p.weight))
      = [(some 0, some 80), (none, some 81)]
      ∧ some (80 : Rat) ≠ some 81 := by
  exact ⟨by decide, by decide⟩

/-- C8 (amended): the pipeline does not collapse same-date weight entries to
the last write.  In general the Actual output pairs the merged-and-forward-
filled weight column with the timeline *by row position*: its date column is
always the timeline dates in order followed by one dateless row per surplus
merge row, and its weight column is exactly the forward-filled merged column;
when some timeline date has two or more weight entries, that column is
strictly longer than the timeline, so the pairing shifts.  In the minimal
case — exactly two entries written on the same date `d` over a one-day
range — the Actual output is `[(d, w1), (no date, w2)]`: the dated point
shows the *first*-written weight, not the last-written one. -/
theorem claim_C8 (pw : List WEntry) (pdaily : List LEntry) (d0 d : Int)
    (w1 w2 net : Rat) :
    ((plot_df pw pdaily).filter (fun p => p.kind == SeriesKind.Actual)).map
        ProgressPoint.date
      = (timelineOf pw pdaily).map some
        ++ List.replicate
            ((actualWeights pw pdaily).length - (timelineOf pw pdaily).length) none
      ∧ ((plot_df pw pdaily).filter (fun p => p.kind == SeriesKind.Actual)).map
          ProgressPoint.weight = actualWeights pw pdaily
      ∧ (d0 ∈ timelineOf pw pdaily →
          2 ≤ (pw.filter (fun e => e.date == d0)).length →
          (timelineOf pw pdaily).length < (actualWeights pw pdaily).length)
      ∧ ((plot_df [WEntry.mk d w1, WEntry.mk d w2] [LEntry.mk d net]).filter
            (fun p => p.kind == SeriesKind.Actual)).map (fun p => (p.date, p.weight))
        = [(some d, some w1), (none, some w2)] := by
  have hle := timeline_le_actualWeights pw pdaily
  have hfil : ((plot_df pw pdaily).filter (fun p => p.kind == SeriesKind.Actual))
      = (alignCols (timelineOf pw pdaily) (actualWeights pw pdaily)).map
          (fun p => ProgressPoint.mk p.1 p.2 SeriesKind.Actual) := by
    unfold plot_df
    rw [List.filter_append, filter_kind_map_same,
      filter_kind_map_ne _ SeriesKind.Predicted SeriesKind.Actual rfl,
      List.append_nil]
  refine ⟨?_, ?_, ?_, ?_⟩
  · rw [hfil, List.map_map]
    exact alignCols_map_fst_pad _ _ hle
  · rw [hfil, List.map_map]
    exact alignCols_map_snd _ _ hle
  · intro hd h2
    have hper : ((sortBy WEntry.date pw).filter (fun e => e.date == d0)).length
        = (pw.filter (fun e => e.date == d0)).length :=
      ((sortBy_perm WEntry.date pw).filter _).length_eq
    unfold actualWeights
    rw [ffillFrom_length, List.length_map]
    exact mergeActual_length_lt _ _ d0 hd (by rw [hper]; exact h2)
  · have hsort : sortBy WEntry.date [WEntry.mk d w1, WEntry.mk d w2]
        = [WEntry.mk d w1, WEntry.mk d w2] := by
      simp [sortBy, insertBy]
    have htl : timelineOf [WEntry.mk d w1, WEntry.mk d w2] [LEntry.mk d net] = [d] := by
      simp [timelineOf, start_date, end_date, minKey, maxKey, dateRange, List.range_succ]
    have hact : actualWeights [WEntry.mk d w1, WEntry.mk d w2] [LEntry.mk d net]
        = [some w1, some w2] := by
      unfold actualWeights
      rw [htl, hsort]
      simp [mergeActual, matchRows, ffillFrom]
    have halign : alignCols [d] [some w1, some w2]
        = [(some d, some w1), (none, some w2)] := by
      simp [alignCols, List.range_succ]
    unfold plot_df
    rw [htl, hact, halign, List.filter_append, filter_kind_map_same,
      filter_kind_map_ne _ SeriesKind.Predicted SeriesKind.Actual rfl,
      List.append_nil, List.map_map]
    simp

/-- C8 witness: the three-entry series `[(0, 80), (0, 81), (5, 79)]` with a
day-0 log has a seven-row Actual output over a six-day timeline, and the
minimal two-entry scenario shows the first-written weight at the date. -/
theorem claim_C8_witness :
    (timelineOf [WEntry.mk 0 80, WEntry.mk 0 81, WEntry.mk 5 79]
          [LEntry.mk 0 (-700)]).length
        < (actualWeights [WEntry.mk 0 80, WEntry.mk 0 81, WEntry.mk 5 79]
            [LEntry.mk 0 (-700)]).length
      ∧ ((plot_df [WEntry.mk 1 70, WEntry.mk 1 71] [LEntry.mk 1 (-5)]).filter
            (fun p => p.kind == SeriesKind.Actual)).map (fun p => (p.date, p.weight))
        = [(some 1, some 70), (none, some 71)] :=
  ⟨(claim_C8 [WEntry.mk 0 80, WEntry.mk 0 81, WEntry.mk 5 79] [LEntry.mk 0 (-700)]
      0 1 70 71 (-5)).2.2.1 (by decide) (by decide),
    (claim_C8 [WEntry.mk 0 80, WEntry.mk 0 81, WEntry.mk 5 79] [LEntry.mk 0 (-700)]
      0 1 70 71 (-5)).2.2.2⟩

end FitnessTracker
